import Mathlib

/-!
Shallow embedding of the `workflow_runtime` package (envelope/context model,
error classification and fingerprinting, idempotency locks, JobRun and
Attempt lifecycle records) together with theorems settling the frozen
claims about it.

Conventions of the embedding:
- Python `dict` values are modelled as insertion-ordered association lists
  (`alGet` / `alSet` below reproduce Python assignment semantics: replace in
  place when the key exists, append otherwise).
- Wall-clock reads (`time.time()`, `datetime.now()`) and `uuid.uuid4()` are
  passed in as explicit parameters, since the source isolates them exactly
  that way in its test hooks.
- The DynamoDB store is a finite map from the composite `(PK, SK)` key to an
  item; conditional put/update model the store's condition-expression
  semantics (`attribute_not_exists` / `attribute_exists`).
- Exceptions are an inductive type `PyExc`; fallible operations return
  `Except PyExc`. All functions are pure, so the "never mutates its input"
  clauses of the spec hold by construction; the theorems state the
  value-level content.
-/

namespace WorkflowRuntime

/-! ## Association lists modelling Python dicts -/

/-- Lookup in an insertion-ordered association list (Python `d.get(k)` /
`d[k]`). -/
def alGet {κ α : Type} [DecidableEq κ] : List (κ × α) → κ → Option α
  | [], _ => none
  | (k', v) :: rest, k => if k' = k then some v else alGet rest k

/-- Assignment `d[k] = v` on an insertion-ordered association list: replaces
the existing binding in place, or appends a new one at the end, exactly as a
Python dict does. -/
def alSet {κ α : Type} [DecidableEq κ] : List (κ × α) → κ → α → List (κ × α)
  | [], k, v => [(k, v)]
  | (k', v') :: rest, k, v =>
      if k' = k then (k, v) :: rest else (k', v') :: alSet rest k v

/-- Membership test `k in d`. -/
def alContains {κ α : Type} [DecidableEq κ] (l : List (κ × α)) (k : κ) : Bool :=
  (alGet l k).isSome

/-- Deletion of the binding for `k` (used by the store's `delete_item`). -/
def alDelete {κ α : Type} [DecidableEq κ] : List (κ × α) → κ → List (κ × α)
  | [], _ => []
  | (k', v') :: rest, k => if k' = k then rest else (k', v') :: alDelete rest k

/-- Python `d.update(u)`: fold assignment over the entries of `u`. -/
def alUpdate {κ α : Type} [DecidableEq κ] (l : List (κ × α)) (u : List (κ × α)) :
    List (κ × α) :=
  u.foldl (fun acc kv => alSet acc kv.1 kv.2) l

theorem alGet_alSet_self {κ α : Type} [DecidableEq κ] (l : List (κ × α)) (k : κ) (v : α) :
    alGet (alSet l k v) k = some v := by
  induction l with
  | nil => simp [alSet, alGet]
  | cons hd tl ih =>
      obtain ⟨k0, v0⟩ := hd
      by_cases h0 : k0 = k
      · subst h0
        simp [alSet, alGet]
      · simp [alSet, alGet, h0, ih]

theorem alGet_alSet_ne {κ α : Type} [DecidableEq κ] (l : List (κ × α)) (k k' : κ) (v : α)
    (h : k' ≠ k) : alGet (alSet l k v) k' = alGet l k' := by
  have h' : k ≠ k' := fun hh => h hh.symm
  induction l with
  | nil => simp [alSet, alGet, h']
  | cons hd tl ih =>
      obtain ⟨k0, v0⟩ := hd
      by_cases h0 : k0 = k
      · subst h0
        simp [alSet, alGet, h']
      · by_cases h1 : k0 = k'
        · simp [alSet, alGet, h0, h1, h]
        · simp [alSet, alGet, h0, h1, ih]

theorem alGet_alDelete_ne {κ α : Type} [DecidableEq κ] (l : List (κ × α)) (k k' : κ)
    (h : k' ≠ k) : alGet (alDelete l k) k' = alGet l k' := by
  have h' : k ≠ k' := fun hh => h hh.symm
  induction l with
  | nil => rfl
  | cons hd tl ih =>
      obtain ⟨k0, v0⟩ := hd
      by_cases h0 : k0 = k
      · subst h0
        simp [alDelete, alGet, h']
      · by_cases h1 : k0 = k'
        · simp [alDelete, alGet, h0, h1, h]
        · simp [alDelete, alGet, h0, h1, ih]

theorem alGet_alUpdate_notMem {κ α : Type} [DecidableEq κ] (u l : List (κ × α)) (k : κ)
    (h : ∀ kv ∈ u, kv.1 ≠ k) : alGet (alUpdate l u) k = alGet l k := by
  induction u generalizing l with
  | nil => simp [alUpdate]
  | cons hd tl ih =>
      have hhd : hd.1 ≠ k := h hd (by simp)
      have htl : ∀ kv ∈ tl, kv.1 ≠ k := fun kv hm => h kv (by simp [hm])
      calc alGet (alUpdate l (hd :: tl)) k
          = alGet (alUpdate (alSet l hd.1 hd.2) tl) k := rfl
        _ = alGet (alSet l hd.1 hd.2) k := ih _ htl
        _ = alGet l k := alGet_alSet_ne _ _ _ _ (fun hh => hhd hh.symm)

/-! ## Python-level values (envelope payloads) -/

/-- Untyped Python values as they occur in envelopes: `None`, booleans,
integers, strings, dicts and lists. -/
inductive PyVal where
  | none
  | bool (b : Bool)
  | int (n : Int)
  | str (s : String)
  | dict (entries : List (String × PyVal))
  | list (xs : List PyVal)

/-- Python truthiness test, as used by `if not ctx.get("correlation_id")`:
`None`, `False`, `0`, the empty string, the empty dict and the empty list are
falsy. -/
def pyFalsy : PyVal → Bool
  | .none => true
  | .bool b => !b
  | .int n => n == 0
  | .str s => s == ""
  | .dict d => d.isEmpty
  | .list l => l.isEmpty

/-- Python `v is None` test. -/
def isPyNone : PyVal → Bool
  | .none => true
  | _ => false

/-- Truthiness of the result of `d.get(k)` (a missing key yields `None`,
which is falsy). -/
def pyFalsyOpt : Option PyVal → Bool
  | Option.none => true
  | some v => pyFalsy v

/-! ## Whitespace normalization (errors.py `_normalize_message`)

The source normalizes an error message with `msg.strip()` followed by
`re.sub(r"\s+", " ", ...)`.  We model the regex whitespace class at the
ASCII level (space, tab, newline, carriage return, vertical tab, form
feed), which covers every message the runtime itself produces. -/

/-- Characters matched by the regex class `\s` (ASCII fragment). -/
def isPySpace (c : Char) : Bool :=
  c = ' ' || c = '\t' || c = '\n' || c = '\r' ||
    c = Char.ofNat 11 || c = Char.ofNat 12

/-- Removal of trailing whitespace (the right half of Python `str.strip`). -/
def rstripWS : List Char → List Char
  | [] => []
  | c :: cs =>
      match rstripWS cs with
      | [] => if isPySpace c then [] else [c]
      | r => c :: r

/-- Python `str.strip()`: drop leading and trailing whitespace. -/
def stripWS (l : List Char) : List Char :=
  rstripWS (l.dropWhile isPySpace)

/-- Replacement `re.sub(r"\s+", " ", s)`: every maximal run of whitespace
characters collapses to a single space. -/
def collapseWS : List Char → List Char
  | [] => []
  | c :: cs =>
      if isPySpace c then
        match cs with
        | [] => [' ']
        | c2 :: _ => if isPySpace c2 then collapseWS cs else ' ' :: collapseWS cs
      else c :: collapseWS cs

/-- Source `_normalize_message`: `_WHITESPACE_RE.sub(" ", msg.strip())`. -/
def _normalize_message (s : String) : String :=
  String.mk (collapseWS (stripWS s.data))

/-! ## SHA-256 over byte lists (errors.py `fingerprint_error`)

A direct executable embedding of SHA-256, operating on `Nat` bytes with
explicit reduction modulo 2^32 where the algorithm relies on 32-bit
overflow. -/

/-- Reduction of a `Nat` to a 32-bit word. -/
def w32 (n : Nat) : Nat := n % 4294967296

/-- Right rotation of a 32-bit word by `n` bits. -/
def rotr32 (n x : Nat) : Nat := w32 ((x >>> n) ||| (x <<< (32 - n)))

/-- Bitwise complement of a 32-bit word. -/
def not32 (x : Nat) : Nat := 4294967295 - (x % 4294967296)

/-- SHA-256 small sigma 0. -/
def ssig0 (x : Nat) : Nat := (rotr32 7 x) ^^^ (rotr32 18 x) ^^^ (x >>> 3)

/-- SHA-256 small sigma 1. -/
def ssig1 (x : Nat) : Nat := (rotr32 17 x) ^^^ (rotr32 19 x) ^^^ (x >>> 10)

/-- SHA-256 big sigma 0. -/
def bsig0 (x : Nat) : Nat := (rotr32 2 x) ^^^ (rotr32 13 x) ^^^ (rotr32 22 x)

/-- SHA-256 big sigma 1. -/
def bsig1 (x : Nat) : Nat := (rotr32 6 x) ^^^ (rotr32 11 x) ^^^ (rotr32 25 x)

/-- SHA-256 choose function. -/
def ch32 (x y z : Nat) : Nat := (x &&& y) ^^^ (not32 x &&& z)

/-- SHA-256 majority function. -/
def maj32 (x y z : Nat) : Nat := (x &&& y) ^^^ (x &&& z) ^^^ (y &&& z)

/-- SHA-256 round constants (the fractional parts of the cube roots of the
first 64 primes, here as decimal 32-bit values). -/
def sha256K : List Nat :=
  [1116352408, 1899447441, 3049323471, 3921009573, 961987163,
   1508970993, 2453635748, 2870763221, 3624381080, 310598401,
   607225278, 1426881987, 1925078388, 2162078206, 2614888103,
   3248222580, 3835390401, 4022224774, 264347078, 604807628,
   770255983, 1249150122, 1555081692, 1996064986, 2554220882,
   2821834349, 2952996808, 3210313671, 3336571891, 3584528711,
   113926993, 338241895, 666307205, 773529912, 1294757372,
   1396182291, 1695183700, 1986661051, 2177026350, 2456956037,
   2730485921, 2820302411, 3259730800, 3345764771, 3516065817,
   3600352804, 4094571909, 275423344, 430227734, 506948616,
   659060556, 883997877, 958139571, 1322822218, 1537002063,
   1747873779, 1955562222, 2024104815, 2227730452, 2361852424,
   2428436474, 2756734187, 3204031479, 3329325298]

/-- Working state of the compression function (eight 32-bit words). -/
structure Hash8 where
  a : Nat
  b : Nat
  c : Nat
  d : Nat
  e : Nat
  f : Nat
  g : Nat
  h : Nat

/-- Initial SHA-256 hash value. -/
def sha256Init : Hash8 :=
  ⟨1779033703, 3144134277, 1013904242, 2773480762,
   1359893119, 2600822924, 528734635, 1541459225⟩

/-- One compression round for round constant `ki` and schedule word `wi`. -/
def sha256Round (st : Hash8) (ki wi : Nat) : Hash8 :=
  let t1 := w32 (st.h + bsig1 st.e + ch32 st.e st.f st.g + ki + wi)
  let t2 := w32 (bsig0 st.a + maj32 st.a st.b st.c)
  ⟨w32 (t1 + t2), st.a, st.b, st.c, w32 (st.d + t1), st.e, st.f, st.g⟩

/-- Big-endian 32-bit words from a block of bytes. -/
def wordsOfBytes : List Nat → List Nat
  | b0 :: b1 :: b2 :: b3 :: rest =>
      (b0 * 16777216 + b1 * 65536 + b2 * 256 + b3) :: wordsOfBytes rest
  | _ => []

/-- Message-schedule extension: prepends `k` derived words to the reversed
schedule `w` (element 0 is the most recent word). -/
def extendSchedule : Nat → List Nat → List Nat
  | 0, w => w
  | k + 1, w =>
      extendSchedule k
        (w32 (ssig1 (w.getD 1 0) + w.getD 6 0 + ssig0 (w.getD 14 0) + w.getD 15 0) :: w)

/-- Full 64-word message schedule of one 64-byte block. -/
def sha256Schedule (block : List Nat) : List Nat :=
  (extendSchedule 48 (wordsOfBytes block).reverse).reverse

/-- Compression of one 64-byte block into the running hash. -/
def sha256Compress (st : Hash8) (block : List Nat) : Hash8 :=
  let ws := sha256Schedule block
  let fin := (sha256K.zip ws).foldl (fun s kw => sha256Round s kw.1 kw.2) st
  ⟨w32 (st.a + fin.a), w32 (st.b + fin.b), w32 (st.c + fin.c), w32 (st.d + fin.d),
   w32 (st.e + fin.e), w32 (st.f + fin.f), w32 (st.g + fin.g), w32 (st.h + fin.h)⟩

/-- Iterated block processing, driven by a block-count fuel so the recursion
is structural. -/
def sha256Blocks : Nat → List Nat → Hash8 → Hash8
  | 0, _, st => st
  | n + 1, bs, st => sha256Blocks n (bs.drop 64) (sha256Compress st (bs.take 64))

/-- Big-endian byte rendering of `v` on `k` bytes. -/
def bytesBE : Nat → Nat → List Nat
  | 0, _ => []
  | k + 1, v => bytesBE k (v / 256) ++ [v % 256]

/-- SHA-256 padding: append `0x80`, zero bytes up to 56 mod 64, then the
64-bit big-endian bit length. -/
def sha256Pad (msg : List Nat) : List Nat :=
  let padZeros := (119 - msg.length % 64) % 64
  msg ++ 0x80 :: List.replicate padZeros 0 ++ bytesBE 8 (msg.length * 8 % 2 ^ 64)

/-- SHA-256 of a byte list, as the final eight-word state. -/
def sha256Words (msg : List Nat) : Hash8 :=
  let padded := sha256Pad msg
  sha256Blocks (padded.length / 64) padded sha256Init

/-- Lowercase hexadecimal digit for `n < 16`. -/
def hexDigitChar (n : Nat) : Char :=
  if n < 10 then Char.ofNat (48 + n) else Char.ofNat (87 + n)

/-- Fixed-width lowercase hexadecimal rendering (`k` digits). -/
def toHexFixed : Nat → Nat → List Char
  | 0, _ => []
  | k + 1, v => toHexFixed k (v / 16) ++ [hexDigitChar (v % 16)]

/-- Character list of `hashlib.sha256(bytes).hexdigest()`: 64 lowercase hex
characters. -/
def sha256HexChars (msg : List Nat) : List Char :=
  let hw := sha256Words msg
  toHexFixed 8 hw.a ++ toHexFixed 8 hw.b ++ toHexFixed 8 hw.c ++ toHexFixed 8 hw.d ++
    toHexFixed 8 hw.e ++ toHexFixed 8 hw.f ++ toHexFixed 8 hw.g ++ toHexFixed 8 hw.h

/-- UTF-8 encoding of one character (Python `str.encode("utf-8")`). -/
def utf8Char (c : Char) : List Nat :=
  let n := c.toNat
  if n < 128 then [n]
  else if n < 2048 then [192 ||| (n >>> 6), 128 ||| (n &&& 63)]
  else if n < 65536 then
    [224 ||| (n >>> 12), 128 ||| ((n >>> 6) &&& 63), 128 ||| (n &&& 63)]
  else
    [240 ||| (n >>> 18), 128 ||| ((n >>> 12) &&& 63), 128 ||| ((n >>> 6) &&& 63),
     128 ||| (n &&& 63)]

/-- UTF-8 encoding of a string as a byte list. -/
def utf8Bytes (s : String) : List Nat :=
  s.data.foldr (fun c acc => utf8Char c ++ acc) []

/-! ## Exceptions and classification (errors.py) -/

/-- Error dispositions (`ErrorClassification` in errors.py). -/
inductive ErrorClassification where
  | RETRYABLE
  | TERMINAL
  | QUARANTINE
deriving DecidableEq

/-- Exceptions the runtime distinguishes.  `msg` models `str(exc)`.
`envelopeValidationError` is the envelope.py `EnvelopeValidationError`, a
subclass of Python `ValueError`; `clientError` is botocore's `ClientError`
carrying `response["Error"]["Code"]` and
`response["ResponseMetadata"]["HTTPStatusCode"]`; `other` is any exception
type the classifier does not inspect, carrying its class name. -/
inductive PyExc where
  | suspectData (msg : String)
  | validationError (msg : String)
  | envelopeValidationError (msg : String)
  | valueError (msg : String)
  | typeError (msg : String)
  | clientError (code : String) (httpStatus : Nat) (msg : String)
  | other (typeName : String) (msg : String)
deriving DecidableEq

/-- Python `exc.__class__.__name__`. -/
def excTypeName : PyExc → String
  | .suspectData _ => "SuspectDataError"
  | .validationError _ => "ValidationError"
  | .envelopeValidationError _ => "EnvelopeValidationError"
  | .valueError _ => "ValueError"
  | .typeError _ => "TypeError"
  | .clientError _ _ _ => "ClientError"
  | .other t _ => t

/-- Python `str(exc)`. -/
def excMessage : PyExc → String
  | .suspectData m => m
  | .validationError m => m
  | .envelopeValidationError m => m
  | .valueError m => m
  | .typeError m => m
  | .clientError _ _ m => m
  | .other _ m => m

/-- Store error code: `exc.response["Error"]["Code"]` when the exception is
a botocore `ClientError`, absent otherwise (the `isinstance(exc, ClientError)`
test in the source). -/
def excStoreCode : PyExc → Option String
  | .clientError code _ _ => some code
  | _ => none

/-- Python `a or b` for strings: `b` when `a` is empty. -/
def strOr (a b : String) : String := if a = "" then b else a

/-- Source `fingerprint_error`, restricted to the exception branch: the
material is `f"{kind}:{msg}"`, or `f"{kind}:{code}:{msg}"` for a store
`ClientError`, with the message whitespace-normalized. -/
def fingerprintMaterial (exc : PyExc) : String :=
  match excStoreCode exc with
  | some code =>
      excTypeName exc ++ ":" ++ code ++ ":" ++ _normalize_message (excMessage exc)
  | none => excTypeName exc ++ ":" ++ _normalize_message (excMessage exc)

/-- Source `fingerprint_error`: SHA-256 of the UTF-8 bytes of the material,
hex digest truncated to its first 16 characters (`digest[:16]`). -/
def fingerprint_error (exc : PyExc) : String :=
  String.mk ((sha256HexChars (utf8Bytes (fingerprintMaterial exc))).take 16)

/-- Source `_is_throttling`: membership of the store error code in the fixed
throttling-code set. -/
def _is_throttling (code : String) : Bool :=
  code = "Throttling" || code = "ThrottlingException" ||
    code = "ProvisionedThroughputExceededException" ||
    code = "RequestLimitExceeded" || code = "TooManyRequestsException" ||
    code = "SlowDown"

/-- Membership of the HTTP status in `{429, 500, 502, 503, 504}`. -/
def isTransientStatus (s : Nat) : Bool :=
  s = 429 || s = 500 || s = 502 || s = 503 || s = 504

/-- Source `classify_exception`: the `isinstance` chain in order —
`SuspectDataError`, then `ValidationError | ValueError | TypeError` (which
`EnvelopeValidationError` satisfies as a `ValueError` subclass), then
botocore `ClientError` split on throttling code / transient HTTP status,
and a retryable default. -/
def classify_exception (exc : PyExc) : ErrorClassification × String × String :=
  match exc with
  | .suspectData m =>
      (.QUARANTINE, fingerprint_error exc, strOr m (excTypeName exc))
  | .validationError m =>
      (.TERMINAL, fingerprint_error exc, strOr m (excTypeName exc))
  | .envelopeValidationError m =>
      (.TERMINAL, fingerprint_error exc, strOr m (excTypeName exc))
  | .valueError m =>
      (.TERMINAL, fingerprint_error exc, strOr m (excTypeName exc))
  | .typeError m =>
      (.TERMINAL, fingerprint_error exc, strOr m (excTypeName exc))
  | .clientError code httpStatus m =>
      if _is_throttling code || isTransientStatus httpStatus then
        (.RETRYABLE, fingerprint_error exc, strOr m (strOr code (excTypeName exc)))
      else
        (.TERMINAL, fingerprint_error exc, strOr m (strOr code (excTypeName exc)))
  | .other _ m =>
      (.RETRYABLE, fingerprint_error exc, strOr m (excTypeName exc))

/-! ## Spec-side classification table (for the refinement claim C1)

Written from the claim's words, not from the source: QUARANTINE for suspect
data, TERMINAL for validation/shape errors, RETRYABLE for throttling or
429/5xx-class store errors, TERMINAL for other store errors, RETRYABLE for
everything unclassified. -/

/-- Whether the exception is the domain-declared suspect-data error. -/
def isSuspectDataError : PyExc → Bool
  | .suspectData _ => true
  | _ => false

/-- Whether the exception is a validation/shape error (`ValidationError`,
`ValueError` and its subclasses, `TypeError`). -/
def isValidationShapeError : PyExc → Bool
  | .validationError _ => true
  | .envelopeValidationError _ => true
  | .valueError _ => true
  | .typeError _ => true
  | _ => false

/-- Classification table exactly as the claim states it. -/
def spec_classification (exc : PyExc) : ErrorClassification :=
  if isSuspectDataError exc then .QUARANTINE
  else if isValidationShapeError exc then .TERMINAL
  else
    match excStoreCode exc, exc with
    | some code, .clientError _ httpStatus _ =>
        if _is_throttling code || isTransientStatus httpStatus then .RETRYABLE
        else .TERMINAL
    | _, _ => .RETRYABLE

/-! ## Envelope operations (envelope.py) -/

/-- Envelopes are Python dicts; this alias names the association-list form. -/
def PyDict : Type := List (String × PyVal)

/-- Source `envelope_ok`: shape validation mirroring the source's check
order; each failing check raises `EnvelopeValidationError` with the source's
message, a success returns `True`. -/
def envelope_ok (envelope : PyVal) : Except PyExc Bool :=
  match envelope with
  | .dict env =>
      if !alContains env "input" then
        .error (.envelopeValidationError "Envelope missing required key: 'input'")
      else if !alContains env "context" then
        .error (.envelopeValidationError "Envelope missing required key: 'context'")
      else
        match alGet env "input" with
        | some (.dict _) =>
            match alGet env "context" with
            | some (.dict ctx) =>
                if pyFalsyOpt (alGet ctx "correlation_id") then
                  .error (.envelopeValidationError
                    "Envelope['context'].correlation_id is required")
                else .ok true
            | _ => .error (.envelopeValidationError "Envelope['context'] must be a dict")
        | _ => .error (.envelopeValidationError "Envelope['input'] must be a dict")
  | _ => .error (.envelopeValidationError "Envelope must be a dict")

/-- Source `ensure_correlation_id`.  `freshUuid` stands for the
`str(uuid.uuid4())` draw.  The source first replaces a missing or non-dict
`context` with `{}` (on a deep copy), then, when `context.get("correlation_id")`
is falsy, injects the fresh identifier (again on a copy); otherwise it
returns the envelope unchanged.  Copying is the identity in this pure
embedding, which is what makes the source's no-mutation guarantee hold by
construction. -/
def ensure_correlation_id (envelope : PyDict) (freshUuid : String) : PyDict :=
  let env1 := match alGet envelope "context" with
    | some (.dict _) => envelope
    | _ => alSet envelope "context" (.dict [])
  let ctx := match alGet env1 "context" with
    | some (.dict d) => d
    | _ => []
  if pyFalsyOpt (alGet ctx "correlation_id") then
    alSet env1 "context" (.dict (alSet ctx "correlation_id" (.str freshUuid)))
  else env1

/-- Source `with_context`: copy the envelope, take `dict(env.get("context", {}))`
(an error when the present `context` value is not a dict, modelled as `none`),
apply `ctx.update({k: v for k, v in updates.items() if v is not None})`, and
store the merged dict back. -/
def with_context (envelope : PyDict) (updates : List (String × PyVal)) :
    Option PyDict :=
  match alGet envelope "context" with
  | some (.dict d) =>
      some (alSet envelope "context"
        (.dict (alUpdate d (updates.filter (fun kv => !isPyNone kv.2)))))
  | some _ => none
  | none =>
      some (alSet envelope "context"
        (.dict (alUpdate [] (updates.filter (fun kv => !isPyNone kv.2)))))

/-! ## DynamoDB store model (ddb.py and its callers)

The store is a list of items keyed by the composite `(PK, SK)` pair.
`putItemIfAbsent` models `put_item` with the condition
`attribute_not_exists(PK)` (equivalently `... AND attribute_not_exists(SK)`:
either form is true exactly when no item with that full key exists).
`updateItemCond` models `update_item` with a `SET` expression and a
condition over the current item; per DynamoDB semantics the condition is
evaluated against the item at the key (absent item: attribute tests see no
attributes), a passing update on an absent key creates the item, and a
failing condition raises a `ClientError` with code
`ConditionalCheckFailedException` leaving the table unchanged. -/

/-- DynamoDB attribute values used by the runtime's items. -/
inductive AttrVal where
  | s (v : String)
  | n (v : Int)
  | m (entries : List (String × AttrVal))

/-- One stored item: its attribute map. -/
def Item : Type := List (String × AttrVal)

/-- The table: items keyed by `(PK, SK)`. -/
def DDB : Type := List ((String × String) × Item)

/-- The `ClientError` DynamoDB raises on a failed condition expression. -/
def condCheckFailedExc : PyExc :=
  .clientError "ConditionalCheckFailedException" 400 "The conditional request failed"

/-- Conditional insert (`put_item` with an attribute-not-exists condition on
the key). -/
def putItemIfAbsent (db : DDB) (key : String × String) (item : Item) :
    Except PyExc DDB :=
  match alGet db key with
  | some _ => .error condCheckFailedExc
  | none => .ok (alSet db key item)

/-- Conditional update (`update_item` with a `SET` expression): `cond`
receives the current item when one exists; `sets` are the attribute
assignments of the `SET` clause, applied in order. -/
def updateItemCond (db : DDB) (key : String × String) (cond : Option Item → Bool)
    (sets : List (String × AttrVal)) : Except PyExc DDB :=
  let cur := alGet db key
  if cond cur then
    let base : Item := match cur with
      | some it => it
      | none => [("PK", .s key.1), ("SK", .s key.2)]
    .ok (alSet db key (alUpdate base sets))
  else .error condCheckFailedExc

/-- Unconditional delete (`delete_item`). -/
def deleteItem (db : DDB) (key : String × String) : DDB :=
  alDelete db key

/-! ## Idempotency lock (idempotency.py)

`fault` injects an arbitrary store/transport failure in place of the
`put_item` call (the environment's nondeterminism); `none` means the store
behaves normally and only the modelled conditional check can fail. -/

/-- Source `_lock_pk`. -/
def _lock_pk (key : String) : String := "LOCK#" ++ key

/-- The lock item written by `acquire_lock` (`created_at` is the
`_utc_now_iso()` wall-clock read, `expires_at` the TTL epoch). -/
def lockItem (key : String) (createdAtIso : String) (expiresAt : Int) : Item :=
  [("PK", .s (_lock_pk key)), ("SK", .s "LOCK"), ("entity_type", .s "LOCK"),
   ("lock_key", .s key), ("created_at", .s createdAtIso),
   ("expires_at", .n expiresAt)]

/-- Source `acquire_lock`: conditional insert of the lock item; a
`ClientError` whose code is `ConditionalCheckFailedException` is caught and
turned into `False`, any other error re-raises, a successful insert returns
`True`.  `expires_at = now_epoch + ttl_seconds`. -/
def acquire_lock (key : String) (ttlSeconds : Int) (nowEpoch : Int)
    (createdAtIso : String) (fault : Option PyExc) (db : DDB) :
    Except PyExc (Bool × DDB) :=
  let expires_at := nowEpoch + ttlSeconds
  let res : Except PyExc DDB :=
    match fault with
    | some e => .error e
    | none =>
        putItemIfAbsent db (_lock_pk key, "LOCK") (lockItem key createdAtIso expires_at)
  match res with
  | .ok db' => .ok (true, db')
  | .error e =>
      if excStoreCode e = some "ConditionalCheckFailedException" then .ok (false, db)
      else .error e

/-- Source `release_lock`: unconditional delete of the lock item. -/
def release_lock (key : String) (db : DDB) : DDB :=
  deleteItem db (_lock_pk key, "LOCK")

/-! ## JobRun lifecycle (jobrun.py) -/

/-- Source `_jobrun_sk`. -/
def _jobrun_sk (workflow_name started_at job_run_id : String) : String :=
  "JOBRUN#" ++ workflow_name ++ "#" ++ started_at ++ "#" ++ job_run_id

/-- The JobRun item written by `begin_job_run` before the `identifiers`
update. -/
def jobRunItem (nova_id workflow_name execution_arn correlation_id
    idempotency_key jr_id now : String) : Item :=
  [("PK", .s nova_id), ("SK", .s (_jobrun_sk workflow_name now jr_id)),
   ("entity_type", .s "JobRun"), ("schema_version", .s "1"),
   ("job_run_id", .s jr_id), ("workflow_name", .s workflow_name),
   ("execution_arn", .s execution_arn), ("status", .s "RUNNING"),
   ("started_at", .s now), ("correlation_id", .s correlation_id),
   ("idempotency_key", .s idempotency_key), ("created_at", .s now),
   ("updated_at", .s now)]

/-- Source `begin_job_run`: key defaults (`job_run_id` a fresh UUID,
`started_at` the current instant), item construction, `item.update` with the
caller's string-valued `identifiers` (the source drops `None` values; string
values are never `None`), then a conditional insert on the full key. -/
def begin_job_run (nova_id workflow_name execution_arn correlation_id
    idempotency_key : String) (identifiers : List (String × String))
    (started_at : Option String) (job_run_id : Option String)
    (freshUuid nowIso : String) (db : DDB) : Except PyExc (String × DDB) :=
  let jr_id := job_run_id.getD freshUuid
  let now := started_at.getD nowIso
  let item := alUpdate
    (jobRunItem nova_id workflow_name execution_arn correlation_id
      idempotency_key jr_id now)
    (identifiers.map (fun kv => (kv.1, AttrVal.s kv.2)))
  (putItemIfAbsent db (nova_id, _jobrun_sk workflow_name now jr_id) item).map
    (fun db' => (jr_id, db'))

/-- Source `finalize_job_run`: conditional update with condition
`attribute_not_exists(ended_at)`, setting status, `ended_at`, `updated_at`,
and optionally `outcome` and `summary` (the source drops `None`-valued
summary entries before the truthiness test; `summary_fields` here carries
the already-serialized survivors). -/
def outcomeTail (outcome : Option String) : List (String × AttrVal) :=
  match outcome with
  | some o => [("outcome", AttrVal.s o)]
  | none => []

/-- The `summary = :summary` part of the update expression, present only
when `summary_fields` is supplied and truthy (non-empty). -/
def summaryTail (summary_fields : Option (List (String × AttrVal))) :
    List (String × AttrVal) :=
  match summary_fields with
  | some sf => if sf.isEmpty then [] else [("summary", AttrVal.m sf)]
  | none => []

def finalizeSets (status now : String) (outcome : Option String)
    (summary_fields : Option (List (String × AttrVal))) :
    List (String × AttrVal) :=
  [("status", AttrVal.s status), ("ended_at", AttrVal.s now),
   ("updated_at", AttrVal.s now)]
    ++ outcomeTail outcome ++ summaryTail summary_fields

def finalize_job_run (nova_id workflow_name started_at job_run_id status : String)
    (ended_at : Option String) (outcome : Option String)
    (summary_fields : Option (List (String × AttrVal))) (nowIso : String)
    (db : DDB) : Except PyExc DDB :=
  let now := ended_at.getD nowIso
  let sk := _jobrun_sk workflow_name started_at job_run_id
  updateItemCond db (nova_id, sk)
    (fun cur =>
      match cur with
      | some it => !alContains it "ended_at"
      | none => true)
    (finalizeSets status now outcome summary_fields)

/-! ## Attempt lifecycle (attempt.py) -/

/-- Source `_attempt_sk`. -/
def _attempt_sk (job_run_id task_name : String) (attempt_no : Int)
    (timestamp : String) : String :=
  "ATTEMPT#" ++ job_run_id ++ "#" ++ task_name ++ "#" ++ toString attempt_no ++
    "#" ++ timestamp

/-- The Attempt item written by `record_attempt_started` before the
`identifiers` update. -/
def attemptItem (nova_id job_run_id task_name : String) (attempt_no : Int)
    (now : String) : Item :=
  [("PK", .s nova_id), ("SK", .s (_attempt_sk job_run_id task_name attempt_no now)),
   ("entity_type", .s "Attempt"), ("schema_version", .s "1"),
   ("job_run_id", .s job_run_id), ("task_name", .s task_name),
   ("attempt_no", .n attempt_no), ("status", .s "STARTED"),
   ("started_at", .s now), ("created_at", .s now), ("updated_at", .s now)]

/-- Source `record_attempt_started`: conditional insert of the STARTED item;
returns the sort key as the caller's handle. -/
def record_attempt_started (nova_id job_run_id task_name : String)
    (attempt_no : Int) (started_at : Option String)
    (identifiers : List (String × String)) (nowIso : String) (db : DDB) :
    Except PyExc (String × DDB) :=
  let now := started_at.getD nowIso
  let sk := _attempt_sk job_run_id task_name attempt_no now
  let item := alUpdate (attemptItem nova_id job_run_id task_name attempt_no now)
    (identifiers.map (fun kv => (kv.1, AttrVal.s kv.2)))
  (putItemIfAbsent db (nova_id, sk) item).map (fun db' => (sk, db'))

/-- Source `record_attempt_finished`: conditional update at the handle's key
with condition `attribute_exists(PK) AND attribute_exists(SK)`, setting
status, `finished_at`, `duration_ms`, `updated_at` and optionally the nested
`error` map (`error_fields` carries the already-cleaned entries). -/
def errorTail (error_fields : Option (List (String × AttrVal))) :
    List (String × AttrVal) :=
  match error_fields with
  | some ef => if ef.isEmpty then [] else [("error", AttrVal.m ef)]
  | none => []

def attemptFinishSets (status now : String) (duration_ms : Int)
    (error_fields : Option (List (String × AttrVal))) :
    List (String × AttrVal) :=
  [("status", AttrVal.s status), ("finished_at", AttrVal.s now),
   ("duration_ms", AttrVal.n duration_ms), ("updated_at", AttrVal.s now)]
    ++ errorTail error_fields

def record_attempt_finished (nova_id attempt_sk status : String)
    (duration_ms : Int) (ended_at : Option String)
    (error_fields : Option (List (String × AttrVal))) (nowIso : String)
    (db : DDB) : Except PyExc DDB :=
  let now := ended_at.getD nowIso
  updateItemCond db (nova_id, attempt_sk) (fun cur => cur.isSome)
    (attemptFinishSets status now duration_ms error_fields)

/-! ## Properties of whitespace normalization -/

/-- The list does not start with a whitespace character. -/
def noLeadWS : List Char → Bool
  | [] => true
  | c :: _ => !isPySpace c

/-- The list does not end with a whitespace character. -/
def noTrailWS : List Char → Bool
  | [] => true
  | [c] => !isPySpace c
  | _ :: c2 :: rest => noTrailWS (c2 :: rest)

/-- Fixpoint shape of `collapseWS`: every whitespace character is a plain
space and no two adjacent characters are both whitespace. -/
def collapsedWS : List Char → Bool
  | [] => true
  | [c] => !isPySpace c || c = ' '
  | c1 :: c2 :: rest =>
      (!isPySpace c1 || (c1 = ' ' && !isPySpace c2)) && collapsedWS (c2 :: rest)

/-- Unfolding equation of `collapseWS` on a cons cell. -/
theorem collapseWS_cons (c : Char) (cs : List Char) :
    collapseWS (c :: cs) =
      if isPySpace c then
        (match cs with
         | [] => [' ']
         | c2 :: _ => if isPySpace c2 then collapseWS cs else ' ' :: collapseWS cs)
      else c :: collapseWS cs := rfl

theorem collapseWS_single (c : Char) :
    collapseWS [c] = if isPySpace c then [' '] else [c] := rfl

theorem collapseWS_nonspace (c : Char) (cs : List Char) (hc : isPySpace c = false) :
    collapseWS (c :: cs) = c :: collapseWS cs := by
  rw [collapseWS_cons, if_neg (by simp [hc])]

theorem collapseWS_space_space (c c2 : Char) (rest : List Char)
    (hc : isPySpace c = true) (hc2 : isPySpace c2 = true) :
    collapseWS (c :: c2 :: rest) = collapseWS (c2 :: rest) := by
  rw [collapseWS_cons, if_pos hc]
  exact if_pos hc2

theorem collapseWS_space_nonspace (c c2 : Char) (rest : List Char)
    (hc : isPySpace c = true) (hc2 : isPySpace c2 = false) :
    collapseWS (c :: c2 :: rest) = ' ' :: collapseWS (c2 :: rest) := by
  rw [collapseWS_cons, if_pos hc]
  exact if_neg (by simp [hc2])

theorem noTrailWS_cons_cons (a b : Char) (l : List Char) :
    noTrailWS (a :: b :: l) = noTrailWS (b :: l) := rfl

theorem collapsedWS_single (c : Char) :
    collapsedWS [c] = (!isPySpace c || c = ' ') := rfl

theorem collapsedWS_cons_cons (a b : Char) (l : List Char) :
    collapsedWS (a :: b :: l) =
      ((!isPySpace a || (a = ' ' && !isPySpace b)) && collapsedWS (b :: l)) := rfl

theorem collapseWS_ne_nil (l : List Char) (h : l ≠ []) : collapseWS l ≠ [] := by
  induction l with
  | nil => exact absurd rfl h
  | cons c cs ih =>
      cases cs with
      | nil =>
          rw [collapseWS_single]
          split_ifs <;> simp
      | cons c2 rest =>
          by_cases hc : isPySpace c = true
          · by_cases hc2 : isPySpace c2 = true
            · rw [collapseWS_space_space c c2 rest hc hc2]
              exact ih (by simp)
            · rw [collapseWS_space_nonspace c c2 rest hc (by simpa using hc2)]
              simp
          · rw [collapseWS_nonspace c _ (by simpa using hc)]
            simp

theorem noLeadWS_collapseWS (l : List Char) (h : noLeadWS l = true) :
    noLeadWS (collapseWS l) = true := by
  cases l with
  | nil => rfl
  | cons c cs =>
      have hc : isPySpace c = false := by simpa [noLeadWS] using h
      cases cs with
      | nil =>
          rw [collapseWS_single, if_neg (by simp [hc])]
          simpa [noLeadWS] using hc
      | cons c2 rest =>
          rw [collapseWS_nonspace c _ hc]
          simpa [noLeadWS] using hc

theorem noTrailWS_collapseWS (l : List Char) (h : noTrailWS l = true) :
    noTrailWS (collapseWS l) = true := by
  induction l with
  | nil => rfl
  | cons c cs ih =>
      cases cs with
      | nil =>
          have hc : isPySpace c = false := by simpa [noTrailWS] using h
          rw [collapseWS_single, if_neg (by simp [hc])]
          simpa [noTrailWS] using hc
      | cons c2 rest =>
          have h2 : noTrailWS (c2 :: rest) = true := by
            rw [← noTrailWS_cons_cons c c2 rest]
            exact h
          have ih2 := ih h2
          have hne : collapseWS (c2 :: rest) ≠ [] := collapseWS_ne_nil _ (by simp)
          obtain ⟨x, xs, hx⟩ := List.exists_cons_of_ne_nil hne
          rw [hx] at ih2
          by_cases hc : isPySpace c = true
          · by_cases hc2 : isPySpace c2 = true
            · rw [collapseWS_space_space c c2 rest hc hc2, hx]
              exact ih2
            · rw [collapseWS_space_nonspace c c2 rest hc (by simpa using hc2), hx,
                noTrailWS_cons_cons]
              exact ih2
          · rw [collapseWS_nonspace c _ (by simpa using hc), hx, noTrailWS_cons_cons]
            exact ih2

theorem collapsedWS_collapseWS (l : List Char) : collapsedWS (collapseWS l) = true := by
  induction l with
  | nil => rfl
  | cons c cs ih =>
      cases cs with
      | nil =>
          rw [collapseWS_single]
          split_ifs with hc
          · decide
          · rw [collapsedWS_single]
            simp [hc]
      | cons c2 rest =>
          by_cases hc : isPySpace c = true
          · by_cases hc2 : isPySpace c2 = true
            · rw [collapseWS_space_space c c2 rest hc hc2]
              exact ih
            · have hc2' : isPySpace c2 = false := by simpa using hc2
              have hhead : collapseWS (c2 :: rest) = c2 :: collapseWS rest :=
                collapseWS_nonspace c2 rest hc2'
              rw [collapseWS_space_nonspace c c2 rest hc hc2', hhead,
                collapsedWS_cons_cons]
              rw [hhead] at ih
              simp only [Bool.and_eq_true]
              exact ⟨by rw [hc2']; decide, ih⟩
          · have hc' : isPySpace c = false := by simpa using hc
            have hne : collapseWS (c2 :: rest) ≠ [] := collapseWS_ne_nil _ (by simp)
            obtain ⟨x, xs, hx⟩ := List.exists_cons_of_ne_nil hne
            rw [hx] at ih
            rw [collapseWS_nonspace c _ hc', hx, collapsedWS_cons_cons]
            simp only [Bool.and_eq_true]
            exact ⟨by simp [hc'], ih⟩

theorem collapseWS_of_collapsedWS (l : List Char) (h : collapsedWS l = true) :
    collapseWS l = l := by
  induction l with
  | nil => rfl
  | cons c cs ih =>
      cases cs with
      | nil =>
          rw [collapsedWS_single] at h
          rw [collapseWS_single]
          by_cases hc : isPySpace c = true
          · have hsp : c = ' ' := by simpa [hc] using h
            rw [if_pos hc, hsp]
          · rw [if_neg hc]
      | cons c2 rest =>
          rw [collapsedWS_cons_cons] at h
          simp only [Bool.and_eq_true] at h
          obtain ⟨h1, h2⟩ := h
          have ih2 := ih h2
          by_cases hc : isPySpace c = true
          · have hparts : c = ' ' ∧ isPySpace c2 = false := by
              simpa [hc] using h1
            obtain ⟨hsp, hc2⟩ := hparts
            rw [collapseWS_space_nonspace c c2 rest hc hc2, ih2, hsp]
          · rw [collapseWS_nonspace c _ (by simpa using hc), ih2]

theorem noLeadWS_dropWhile (l : List Char) :
    noLeadWS (l.dropWhile isPySpace) = true := by
  induction l with
  | nil => rfl
  | cons c cs ih =>
      by_cases hc : isPySpace c
      · simpa [List.dropWhile, hc] using ih
      · simp [List.dropWhile, hc, noLeadWS]

theorem dropWhile_of_noLeadWS (l : List Char) (h : noLeadWS l = true) :
    l.dropWhile isPySpace = l := by
  cases l with
  | nil => rfl
  | cons c cs =>
      have hc : isPySpace c = false := by simpa [noLeadWS] using h
      simp [List.dropWhile, hc]

theorem noTrailWS_rstripWS (l : List Char) : noTrailWS (rstripWS l) = true := by
  induction l with
  | nil => rfl
  | cons c cs ih =>
      cases hr : rstripWS cs with
      | nil =>
          by_cases hc : isPySpace c <;> simp [rstripWS, hr, hc, noTrailWS]
      | cons x xs =>
          rw [hr] at ih
          simpa [rstripWS, hr, noTrailWS] using ih

theorem noLeadWS_rstripWS (l : List Char) (h : noLeadWS l = true) :
    noLeadWS (rstripWS l) = true := by
  cases l with
  | nil => rfl
  | cons c cs =>
      have hc : isPySpace c = false := by simpa [noLeadWS] using h
      cases hr : rstripWS cs with
      | nil => simp [rstripWS, hr, hc, noLeadWS]
      | cons x xs => simp [rstripWS, hr, noLeadWS, hc]

theorem rstripWS_of_noTrailWS (l : List Char) (h : noTrailWS l = true) :
    rstripWS l = l := by
  induction l with
  | nil => rfl
  | cons c cs ih =>
      cases cs with
      | nil =>
          have hc : isPySpace c = false := by simpa [noTrailWS] using h
          simp [rstripWS, hc]
      | cons c2 rest =>
          have h2 : noTrailWS (c2 :: rest) = true := by simpa [noTrailWS] using h
          have ih2 := ih h2
          rw [rstripWS, ih2]

theorem stripWS_of_noWS (l : List Char) (hl : noLeadWS l = true)
    (ht : noTrailWS l = true) : stripWS l = l := by
  rw [stripWS, dropWhile_of_noLeadWS _ hl, rstripWS_of_noTrailWS _ ht]

theorem normalize_chars_idem (l : List Char) :
    collapseWS (stripWS (collapseWS (stripWS l))) = collapseWS (stripWS l) := by
  have hl : noLeadWS (stripWS l) = true :=
    noLeadWS_rstripWS _ (noLeadWS_dropWhile l)
  have ht : noTrailWS (stripWS l) = true := noTrailWS_rstripWS _
  have hl' : noLeadWS (collapseWS (stripWS l)) = true := noLeadWS_collapseWS _ hl
  have ht' : noTrailWS (collapseWS (stripWS l)) = true := noTrailWS_collapseWS _ ht
  rw [stripWS_of_noWS _ hl' ht',
    collapseWS_of_collapsedWS _ (collapsedWS_collapseWS (stripWS l))]

theorem normalize_message_idem (s : String) :
    _normalize_message (_normalize_message s) = _normalize_message s := by
  show String.mk (collapseWS (stripWS (String.mk (collapseWS (stripWS s.data))).data))
      = String.mk (collapseWS (stripWS s.data))
  rw [show (String.mk (collapseWS (stripWS s.data))).data
        = collapseWS (stripWS s.data) from rfl,
    normalize_chars_idem]

/-! ## Properties of the hex digest -/

/-- Lowercase hexadecimal characters. -/
def isHexChar (c : Char) : Bool :=
  c.isDigit || ('a' ≤ c && c ≤ 'f')

theorem toHexFixed_length (k v : Nat) : (toHexFixed k v).length = k := by
  induction k generalizing v with
  | zero => rfl
  | succ k ih => simp [toHexFixed, ih]

theorem hexDigitChar_isHex (n : Nat) (h : n < 16) :
    isHexChar (hexDigitChar n) = true := by
  interval_cases n <;> decide

theorem toHexFixed_mem_isHex (k v : Nat) (c : Char) (h : c ∈ toHexFixed k v) :
    isHexChar c = true := by
  induction k generalizing v with
  | zero => simp [toHexFixed] at h
  | succ k ih =>
      simp only [toHexFixed, List.mem_append, List.mem_singleton] at h
      rcases h with h | h
      · exact ih _ h
      · subst h
        exact hexDigitChar_isHex _ (Nat.mod_lt _ (by norm_num))

theorem sha256HexChars_length (msg : List Nat) : (sha256HexChars msg).length = 64 := by
  simp [sha256HexChars, toHexFixed_length]

theorem sha256HexChars_mem_isHex (msg : List Nat) (c : Char)
    (h : c ∈ sha256HexChars msg) : isHexChar c = true := by
  simp only [sha256HexChars, List.mem_append] at h
  rcases h with ((((((h | h) | h) | h) | h) | h) | h) | h <;>
    exact toHexFixed_mem_isHex _ _ _ h

/-! ## Claim C1 -/

/-- C1: for every exception, the classification component of
`classify_exception` agrees with the claim's table: QUARANTINE exactly on
`SuspectDataError`; TERMINAL on validation/shape errors
(`ValidationError`, `ValueError` and its subclasses, `TypeError`); RETRYABLE
on a store `ClientError` with a throttling code or HTTP status in
{429, 500, 502, 503, 504} and TERMINAL on any other store `ClientError`;
RETRYABLE on every unclassified exception. -/
theorem classify_exception_matches_spec (exc : PyExc) :
    (classify_exception exc).1 = spec_classification exc := by
  cases exc with
  | clientError code httpStatus m =>
      by_cases h : (_is_throttling code || isTransientStatus httpStatus) = true <;>
        simp [classify_exception, spec_classification, isSuspectDataError,
          isValidationShapeError, excStoreCode, h]
  | _ =>
      simp [classify_exception, spec_classification, isSuspectDataError,
        isValidationShapeError, excStoreCode]

/-! ## Claim C2 -/

/-- C2: `fingerprint_error` is a pure function of the exception's type name,
optional store error code and whitespace-normalized message: it equals the
first 16 hex characters of the SHA-256 of the UTF-8 bytes of the material
string, it always has exactly 16 characters, all of them hex digits, two
exceptions agreeing on type, code and normalized message fingerprint
identically (in particular calling it twice on the same input yields the
same string), and normalizing the whitespace of a message does not change
the fingerprint. -/
theorem fingerprint_error_spec (e e' : PyExc)
    (hty : excTypeName e = excTypeName e')
    (hcode : excStoreCode e = excStoreCode e')
    (hmsg : _normalize_message (excMessage e) = _normalize_message (excMessage e')) :
    fingerprint_error e
        = String.mk ((sha256HexChars (utf8Bytes (fingerprintMaterial e))).take 16)
      ∧ (fingerprint_error e).length = 16
      ∧ (∀ c ∈ (fingerprint_error e).data, isHexChar c = true)
      ∧ fingerprint_error e = fingerprint_error e'
      ∧ (∀ t m, fingerprint_error (.other t m)
            = fingerprint_error (.other t (_normalize_message m))) := by
  refine ⟨rfl, ?_, ?_, ?_, ?_⟩
  · show ((sha256HexChars (utf8Bytes (fingerprintMaterial e))).take 16).length = 16
    rw [List.length_take, sha256HexChars_length]
    decide
  · intro c hc
    have hc' : c ∈ sha256HexChars (utf8Bytes (fingerprintMaterial e)) :=
      List.take_subset _ _ hc
    exact sha256HexChars_mem_isHex _ _ hc'
  · have hmat : fingerprintMaterial e = fingerprintMaterial e' := by
      simp only [fingerprintMaterial]
      rw [hty, hcode, hmsg]
    rw [fingerprint_error, fingerprint_error, hmat]
  · intro t m
    have hmat : fingerprintMaterial (.other t m)
        = fingerprintMaterial (.other t (_normalize_message m)) := by
      simp only [fingerprintMaterial, excStoreCode, excTypeName, excMessage]
      rw [normalize_message_idem]
    rw [fingerprint_error, fingerprint_error, hmat]

/-! ## Claim C6 -/

/-- Success condition of envelope validation as the claim states it: the
envelope is a dict containing an `input` dict and a `context` dict whose
`correlation_id` is present and truthy (for the string-typed field of the
source's `EnvelopeContext`, truthy means non-empty). -/
def specEnvelopeOK (env : PyVal) : Bool :=
  match env with
  | .dict d =>
      (match alGet d "input" with
       | some (.dict _) => true
       | _ => false) &&
      (match alGet d "context" with
       | some (.dict ctx) => !pyFalsyOpt (alGet ctx "correlation_id")
       | _ => false)
  | _ => false

/-- C6: `envelope_ok` succeeds (returning `True`) exactly on envelopes that
are dicts with an `input` dict and a `context` dict carrying a non-empty
`correlation_id`; every failure raises an `EnvelopeValidationError`, and the
classifier marks every such error TERMINAL — never RETRYABLE, never
QUARANTINE. -/
theorem envelope_ok_spec (env : PyVal) :
    (envelope_ok env = .ok true ↔ specEnvelopeOK env = true)
      ∧ (∀ b, envelope_ok env = .ok b → b = true)
      ∧ ∀ e, envelope_ok env = .error e →
          (∃ m, e = .envelopeValidationError m)
            ∧ (classify_exception e).1 = .TERMINAL
            ∧ (classify_exception e).1 ≠ .RETRYABLE
            ∧ (classify_exception e).1 ≠ .QUARANTINE := by
  have hcls : ∀ m, (classify_exception (.envelopeValidationError m)).1
      = ErrorClassification.TERMINAL := fun _ => rfl
  cases env with
  | dict d =>
      rcases hin : alGet d "input" with _ | vin
      · refine ⟨?_, ?_, ?_⟩
        · simp [envelope_ok, specEnvelopeOK, alContains, hin]
        · intro b hb
          simp [envelope_ok, alContains, hin] at hb
        · intro e he
          simp only [envelope_ok, alContains, hin] at he
          simp only [Option.isSome_none, Bool.not_false, if_pos] at he
          rcases he with ⟨he⟩
          exact ⟨⟨_, rfl⟩, hcls _, by rw [hcls]; decide, by rw [hcls]; decide⟩
      · rcases hctx : alGet d "context" with _ | vctx
        · refine ⟨?_, ?_, ?_⟩
          · simp [envelope_ok, specEnvelopeOK, alContains, hin, hctx]
          · intro b hb
            simp [envelope_ok, alContains, hin, hctx] at hb
          · intro e he
            simp only [envelope_ok, alContains, hin, hctx, Option.isSome_some,
              Bool.not_true, Option.isSome_none, Bool.not_false] at he
            simp only [Bool.false_eq_true, if_false, if_pos] at he
            rcases he with ⟨he⟩
            exact ⟨⟨_, rfl⟩, hcls _, by rw [hcls]; decide, by rw [hcls]; decide⟩
        · cases vin with
          | dict din =>
              cases vctx with
              | dict dctx =>
                  by_cases hcid : pyFalsyOpt (alGet dctx "correlation_id") = true
                  · refine ⟨?_, ?_, ?_⟩
                    · simp [envelope_ok, specEnvelopeOK, alContains, hin, hctx, hcid]
                    · intro b hb
                      simp [envelope_ok, alContains, hin, hctx, hcid] at hb
                    · intro e he
                      simp only [envelope_ok, alContains, hin, hctx, Option.isSome_some,
                        Bool.not_true, Bool.false_eq_true, if_false, hcid, if_pos] at he
                      rcases he with ⟨he⟩
                      exact ⟨⟨_, rfl⟩, hcls _, by rw [hcls]; decide, by rw [hcls]; decide⟩
                  · have hcid' : pyFalsyOpt (alGet dctx "correlation_id") = false := by
                      simpa using hcid
                    refine ⟨?_, ?_, ?_⟩
                    · simp [envelope_ok, specEnvelopeOK, alContains, hin, hctx, hcid']
                    · intro b hb
                      simp only [envelope_ok, alContains, hin, hctx, Option.isSome_some,
                        Bool.not_true, Bool.false_eq_true, if_false, hcid',
                        Except.ok.injEq] at hb
                      exact hb.symm
                    · intro e he
                      simp [envelope_ok, alContains, hin, hctx, hcid'] at he
              | none | bool _ | int _ | str _ | list _ =>
                  refine ⟨?_, ?_, ?_⟩
                  · simp [envelope_ok, specEnvelopeOK, alContains, hin, hctx]
                  · intro b hb
                    simp [envelope_ok, alContains, hin, hctx] at hb
                  · intro e he
                    simp only [envelope_ok, alContains, hin, hctx, Option.isSome_some,
                      Bool.not_true, Bool.false_eq_true, if_false] at he
                    rcases he with ⟨he⟩
                    exact ⟨⟨_, rfl⟩, hcls _, by rw [hcls]; decide, by rw [hcls]; decide⟩
          | none | bool _ | int _ | str _ | list _ =>
              refine ⟨?_, ?_, ?_⟩
              · cases vctx <;>
                  simp [envelope_ok, specEnvelopeOK, alContains, hin, hctx]
              · intro b hb
                simp [envelope_ok, alContains, hin, hctx] at hb
              · intro e he
                simp only [envelope_ok, alContains, hin, hctx, Option.isSome_some,
                  Bool.not_true, Bool.false_eq_true, if_false] at he
                rcases he with ⟨he⟩
                exact ⟨⟨_, rfl⟩, hcls _, by rw [hcls]; decide, by rw [hcls]; decide⟩
  | none | bool _ | int _ | str _ | list _ =>
      refine ⟨?_, ?_, ?_⟩
      · simp [envelope_ok, specEnvelopeOK]
      · intro b hb
        simp [envelope_ok] at hb
      · intro e he
        simp only [envelope_ok] at he
        rcases he with ⟨he⟩
        exact ⟨⟨_, rfl⟩, hcls _, by rw [hcls]; decide, by rw [hcls]; decide⟩

/-- Witness for C6: a well-shaped envelope validates, and the validation
error of an envelope missing its `input` key classifies TERMINAL. -/
theorem envelope_ok_spec_witness :
    envelope_ok (.dict [("input", .dict []), ("context",
        .dict [("correlation_id", .str "c")])]) = .ok true
      ∧ ∀ e, envelope_ok (.dict [("context", .dict [])]) = .error e →
          (classify_exception e).1 = .TERMINAL := by
  constructor
  · exact (envelope_ok_spec _).1.mpr (by decide)
  · intro e he
    exact ((envelope_ok_spec _).2.2 e he).2.1

/-! ## Claims C4 and C9 -/

/-- The envelope's context when it is present and a dict. -/
def ctxDict (env : PyDict) : Option (List (String × PyVal)) :=
  match alGet env "context" with
  | some (.dict d) => some d
  | _ => none

theorem ensure_correlation_id_of_truthy (env : PyDict) (u : String)
    (d : List (String × PyVal)) (hd : alGet env "context" = some (.dict d))
    (hcid : pyFalsyOpt (alGet d "correlation_id") = false) :
    ensure_correlation_id env u = env := by
  simp only [ensure_correlation_id, hd, hcid, Bool.false_eq_true, if_false]

theorem ensure_correlation_id_context_ok (env : PyDict) (u : String) (hu : u ≠ "") :
    ∃ d, ctxDict (ensure_correlation_id env u) = some d
      ∧ pyFalsyOpt (alGet d "correlation_id") = false := by
  have hustr : pyFalsy (.str u) = false := by
    simp [pyFalsy, hu]
  rcases hd : alGet env "context" with _ | v
  · refine ⟨alSet [] "correlation_id" (.str u), ?_, ?_⟩
    · simp only [ensure_correlation_id, hd]
      rw [show alGet (alSet env "context" (PyVal.dict [])) "context"
            = some (PyVal.dict []) from alGet_alSet_self env _ _]
      simp only [pyFalsyOpt, alGet, if_pos]
      rw [ctxDict]
      rw [alGet_alSet_self]
    · rw [show alGet (alSet [] "correlation_id" (PyVal.str u)) "correlation_id"
            = some (PyVal.str u) from alGet_alSet_self [] _ _]
      simpa [pyFalsyOpt] using hustr
  · cases v with
    | dict d =>
        by_cases hcid : pyFalsyOpt (alGet d "correlation_id") = true
        · refine ⟨alSet d "correlation_id" (.str u), ?_, ?_⟩
          · simp only [ensure_correlation_id, hd, hcid, if_true, ctxDict]
            rw [alGet_alSet_self]
          · rw [show alGet (alSet d "correlation_id" (PyVal.str u)) "correlation_id"
                  = some (PyVal.str u) from alGet_alSet_self d _ _]
            simpa [pyFalsyOpt] using hustr
        · have hcid' : pyFalsyOpt (alGet d "correlation_id") = false := by
            simpa using hcid
          refine ⟨d, ?_, hcid'⟩
          rw [ensure_correlation_id_of_truthy env u d hd hcid', ctxDict, hd]
    | none | bool _ | int _ | str _ | list _ =>
        refine ⟨alSet [] "correlation_id" (.str u), ?_, ?_⟩
        · simp only [ensure_correlation_id, hd]
          rw [show alGet (alSet env "context" (PyVal.dict [])) "context"
                = some (PyVal.dict []) from alGet_alSet_self env _ _]
          simp only [pyFalsyOpt, alGet, if_pos]
          rw [ctxDict]
          rw [alGet_alSet_self]
        · rw [show alGet (alSet [] "correlation_id" (PyVal.str u)) "correlation_id"
                = some (PyVal.str u) from alGet_alSet_self [] _ _]
          simpa [pyFalsyOpt] using hustr

/-- C4: when the envelope's context carries a truthy (non-empty)
`correlation_id`, `ensure_correlation_id` returns the input envelope
unchanged (the source returns the same object; mutation is impossible in
this pure model); when the `correlation_id` is missing or falsy it injects
the fresh identifier into the context; and the operation is idempotent —
a second application (with any second fresh draw) returns the first result
unchanged, so in particular the `correlation_id` is the same. -/
theorem ensure_correlation_id_spec (env : PyDict) (u1 u2 : String) (hu1 : u1 ≠ "") :
    (∀ d, alGet env "context" = some (.dict d) →
        pyFalsyOpt (alGet d "correlation_id") = false →
        ensure_correlation_id env u1 = env)
      ∧ (∀ d, alGet env "context" = some (.dict d) →
          pyFalsyOpt (alGet d "correlation_id") = true →
          ctxDict (ensure_correlation_id env u1)
            = some (alSet d "correlation_id" (.str u1)))
      ∧ ensure_correlation_id (ensure_correlation_id env u1) u2
          = ensure_correlation_id env u1 := by
  refine ⟨?_, ?_, ?_⟩
  · intro d hd hcid
    exact ensure_correlation_id_of_truthy env u1 d hd hcid
  · intro d hd hcid
    simp only [ensure_correlation_id, hd, hcid, if_true, ctxDict]
    rw [alGet_alSet_self]
  · obtain ⟨d, hd, hcid⟩ := ensure_correlation_id_context_ok env u1 hu1
    have hd' : alGet (ensure_correlation_id env u1) "context" = some (.dict d) := by
      rw [ctxDict] at hd
      rcases hg : alGet (ensure_correlation_id env u1) "context" with _ | v
      · rw [hg] at hd
        exact absurd hd (by simp)
      · cases v <;> rw [hg] at hd <;> simp_all
    exact ensure_correlation_id_of_truthy _ u2 d hd' hcid

/-- Witness for C4: a context with `correlation_id` `"abc"` is returned
unchanged, and the operation is idempotent from an empty envelope. -/
theorem ensure_correlation_id_spec_witness :
    ("u1" : String) ≠ ""
      ∧ ensure_correlation_id [("context", .dict [("correlation_id", .str "abc")])] "u1"
          = [("context", .dict [("correlation_id", .str "abc")])]
      ∧ ensure_correlation_id (ensure_correlation_id [] "u1") "u2"
          = ensure_correlation_id [] "u1" := by
  have h1 := (ensure_correlation_id_spec
    [("context", .dict [("correlation_id", .str "abc")])] "u1" "u2" (by decide)).1
  have h2 := (ensure_correlation_id_spec [] "u1" "u2" (by decide)).2.2
  exact ⟨by decide, h1 _ rfl (by decide), h2⟩

/-- C9: for every envelope dict, `ensure_correlation_id` is total (the model
is a Lean function, so it cannot raise) and returns an envelope whose
`context` is a dict holding a truthy correlation identifier, even when the
input's `context` is absent or not a dict — in that case it synthesizes the
fresh context from scratch. -/
theorem ensure_correlation_id_safe (env : PyDict) (u : String) (hu : u ≠ "") :
    (∃ d, ctxDict (ensure_correlation_id env u) = some d
        ∧ pyFalsyOpt (alGet d "correlation_id") = false)
      ∧ (ctxDict env = none →
          ensure_correlation_id env u
            = alSet (alSet env "context" (.dict [])) "context"
                (.dict (alSet [] "correlation_id" (.str u)))) := by
  refine ⟨ensure_correlation_id_context_ok env u hu, ?_⟩
  intro hnone
  rcases hd : alGet env "context" with _ | v
  · simp only [ensure_correlation_id, hd]
    rw [show alGet (alSet env "context" (PyVal.dict [])) "context"
          = some (PyVal.dict []) from alGet_alSet_self env _ _]
    simp [pyFalsyOpt, alGet]
  · cases v with
    | dict d =>
        rw [ctxDict, hd] at hnone
        exact absurd hnone (by simp)
    | none | bool _ | int _ | str _ | list _ =>
        simp only [ensure_correlation_id, hd]
        rw [show alGet (alSet env "context" (PyVal.dict [])) "context"
              = some (PyVal.dict []) from alGet_alSet_self env _ _]
        simp [pyFalsyOpt, alGet]

/-- Witness for C9: an envelope whose `context` is a bare string still comes
back with a dict context containing the fresh identifier. -/
theorem ensure_correlation_id_safe_witness :
    ("u9" : String) ≠ ""
      ∧ (∃ d, ctxDict (ensure_correlation_id [("context", .str "broken")] "u9") = some d
          ∧ pyFalsyOpt (alGet d "correlation_id") = false) := by
  exact ⟨by decide, (ensure_correlation_id_safe [("context", .str "broken")] "u9"
    (by decide)).1⟩

/-! ## Claim C5 -/

theorem alGet_eq_none_of_notMem {α : Type} (l : List (String × α)) (k : String)
    (h : ∀ kv ∈ l, kv.1 ≠ k) : alGet l k = none := by
  induction l with
  | nil => rfl
  | cons hd tl ih =>
      obtain ⟨k0, v0⟩ := hd
      have hk0 : k0 ≠ k := h (k0, v0) (by simp)
      simp only [alGet, if_neg hk0]
      exact ih (fun kv hm => h kv (by simp [hm]))

theorem alGet_alUpdate_lookup {α : Type} (u l : List (String × α)) (k : String)
    (hnd : (u.map Prod.fst).Nodup) :
    alGet (alUpdate l u) k =
      match alGet u k with
      | some v => some v
      | none => alGet l k := by
  induction u generalizing l with
  | nil => simp [alUpdate, alGet]
  | cons hd tl ih =>
      obtain ⟨k0, v0⟩ := hd
      simp only [List.map_cons, List.nodup_cons] at hnd
      obtain ⟨hk0, htl⟩ := hnd
      have hstep : alUpdate l ((k0, v0) :: tl) = alUpdate (alSet l k0 v0) tl := rfl
      rw [hstep, ih _ htl]
      by_cases hk : k0 = k
      · subst hk
        have htlget : alGet tl k0 = none := by
          refine alGet_eq_none_of_notMem tl k0 (fun kv hm hkv => hk0 ?_)
          exact hkv ▸ List.mem_map_of_mem Prod.fst hm
        rw [htlget]
        simp only [alGet, if_pos rfl]
        exact alGet_alSet_self l k0 v0
      · have hhd : alGet ((k0, v0) :: tl) k = alGet tl k := by
          simp only [alGet, if_neg hk]
        rw [hhd, alGet_alSet_ne l k0 k v0 (fun hh => hk hh.symm)]

theorem alGet_filter_notNone (u : List (String × PyVal)) (k : String)
    (hnd : (u.map Prod.fst).Nodup) :
    alGet (u.filter (fun kv => !isPyNone kv.2)) k =
      match alGet u k with
      | some v => if isPyNone v then none else some v
      | none => none := by
  induction u with
  | nil => rfl
  | cons hd tl ih =>
      obtain ⟨k0, v0⟩ := hd
      simp only [List.map_cons, List.nodup_cons] at hnd
      obtain ⟨hk0, htl⟩ := hnd
      by_cases hk : k0 = k
      · subst hk
        have htlget : alGet tl k0 = none := by
          refine alGet_eq_none_of_notMem tl k0 (fun kv hm hkv => hk0 ?_)
          exact hkv ▸ List.mem_map_of_mem Prod.fst hm
        by_cases hv : isPyNone v0 = true
        · rw [List.filter_cons_of_neg (by simp [hv])]
          have : alGet (tl.filter (fun kv => !isPyNone kv.2)) k0 = none := by
            rw [ih htl, htlget]
          rw [this]
          simp [alGet, hv]
        · rw [List.filter_cons_of_pos (by simp [hv])]
          simp [alGet, hv]
      · have hhd : alGet ((k0, v0) :: tl) k = alGet tl k := by
          simp only [alGet, if_neg hk]
        by_cases hv : isPyNone v0 = true
        · rw [List.filter_cons_of_neg (by simp [hv]), ih htl, hhd]
        · rw [List.filter_cons_of_pos (by simp [hv])]
          simp only [alGet, if_neg hk]
          rw [ih htl]

/-- C5: `with_context` returns a new envelope whose context is the old
context merged with the updates — a key updated with a non-`None` value
reads back as the update, a key whose update value is `None` (or which is
not updated at all) keeps the context's existing binding — and the input
envelope is untouched (the model is pure; the source operates on a deep
copy).  An absent context behaves as the empty dict. -/
theorem with_context_spec (env : PyDict) (d : List (String × PyVal))
    (updates : List (String × PyVal))
    (hnd : (updates.map Prod.fst).Nodup)
    (hctx : alGet env "context" = some (.dict d)
      ∨ (alGet env "context" = none ∧ d = [])) :
    ∃ ctx', with_context env updates = some (alSet env "context" (.dict ctx'))
      ∧ ∀ k, alGet ctx' k =
          match alGet updates k with
          | some v => if isPyNone v then alGet d k else some v
          | none => alGet d k := by
  have hfilter : ((updates.filter (fun kv => !isPyNone kv.2)).map Prod.fst).Nodup :=
    List.Nodup.sublist (List.Sublist.map Prod.fst (List.filter_sublist updates)) hnd
  have hmain : ∀ k, alGet (alUpdate d (updates.filter (fun kv => !isPyNone kv.2))) k =
      match alGet updates k with
      | some v => if isPyNone v then alGet d k else some v
      | none => alGet d k := by
    intro k
    rw [alGet_alUpdate_lookup _ _ _ hfilter, alGet_filter_notNone _ _ hnd]
    rcases alGet updates k with _ | v
    · simp
    · by_cases hv : isPyNone v = true <;> simp [hv]
  rcases hctx with hctx | ⟨hctx, hd⟩
  · exact ⟨_, by simp only [with_context, hctx], hmain⟩
  · subst hd
    exact ⟨_, by simp only [with_context, hctx], hmain⟩

/-- Witness for C5: updating `job_run_id` while passing `attempt_number` as
`None` keeps the old `attempt_number` and does not erase anything. -/
theorem with_context_spec_witness :
    ∃ ctx', with_context [("input", .dict []), ("context",
          .dict [("correlation_id", .str "c1"), ("attempt_number", .int 1)])]
        [("job_run_id", .str "jr1"), ("attempt_number", PyVal.none)]
        = some (alSet [("input", .dict []), ("context",
            .dict [("correlation_id", .str "c1"), ("attempt_number", .int 1)])]
            "context" (.dict ctx'))
      ∧ ∀ k, alGet ctx' k =
          match alGet [("job_run_id", PyVal.str "jr1"),
              ("attempt_number", PyVal.none)] k with
          | some v => if isPyNone v
              then alGet [("correlation_id", PyVal.str "c1"),
                ("attempt_number", PyVal.int 1)] k
              else some v
          | none => alGet [("correlation_id", PyVal.str "c1"),
              ("attempt_number", PyVal.int 1)] k := by
  exact with_context_spec _ _ _ (by simp) (Or.inl rfl)

/-! ## Claim C3 -/

/-- C3: `acquire_lock` returns `true` exactly when the conditional insert
succeeds (no lock item existed), in which case the stored item's
`expires_at` is `now + ttl`; it returns `false` (with the store unchanged)
exactly when the store reports the conditional-check failure — in the
fault-free model, exactly when the lock item already exists, and likewise
when such a failure is injected; any other store error propagates
unmodified; and an acquire that returned `true` followed immediately by a
second acquire of the same key returns `false`. -/
theorem acquire_lock_spec (key : String) (ttl nowEpoch ttl2 nowEpoch2 : Int)
    (iso iso2 : String) (db : DDB) :
    ((∃ db', acquire_lock key ttl nowEpoch iso none db = .ok (true, db'))
        ↔ alGet db (_lock_pk key, "LOCK") = none)
      ∧ (acquire_lock key ttl nowEpoch iso none db = .ok (false, db)
        ↔ (alGet db (_lock_pk key, "LOCK")).isSome = true)
      ∧ acquire_lock key ttl nowEpoch iso (some condCheckFailedExc) db
          = .ok (false, db)
      ∧ (∀ e, excStoreCode e ≠ some "ConditionalCheckFailedException" →
          acquire_lock key ttl nowEpoch iso (some e) db = .error e)
      ∧ (∀ db', acquire_lock key ttl nowEpoch iso none db = .ok (true, db') →
          alGet db' (_lock_pk key, "LOCK")
              = some (lockItem key iso (nowEpoch + ttl))
            ∧ alGet (lockItem key iso (nowEpoch + ttl)) "expires_at"
              = some (.n (nowEpoch + ttl))
            ∧ acquire_lock key ttl2 nowEpoch2 iso2 none db' = .ok (false, db')) := by
  rcases hl : alGet db (_lock_pk key, "LOCK") with _ | it
  · refine ⟨?_, ?_, ?_, ?_, ?_⟩
    · simp [acquire_lock, putItemIfAbsent, hl]
    · simp only [acquire_lock, putItemIfAbsent, hl]
      constructor
      · intro h
        exact absurd h (by simp)
      · intro h
        exact absurd h (by simp)
    · simp [acquire_lock, condCheckFailedExc, excStoreCode]
    · intro e he
      simp only [acquire_lock]
      rw [if_neg he]
    · intro db' hdb'
      have hdb'eq : db' = alSet db (_lock_pk key, "LOCK")
          (lockItem key iso (nowEpoch + ttl)) := by
        simp only [acquire_lock, putItemIfAbsent, hl, Except.ok.injEq,
          Prod.mk.injEq] at hdb'
        exact hdb'.2.symm
      subst hdb'eq
      refine ⟨alGet_alSet_self db _ _, rfl, ?_⟩
      simp [acquire_lock, putItemIfAbsent, alGet_alSet_self db
        (_lock_pk key, "LOCK") (lockItem key iso (nowEpoch + ttl)),
        condCheckFailedExc, excStoreCode]
  · refine ⟨?_, ?_, ?_, ?_, ?_⟩
    · simp [acquire_lock, putItemIfAbsent, hl, condCheckFailedExc, excStoreCode]
    · simp [acquire_lock, putItemIfAbsent, hl, condCheckFailedExc, excStoreCode]
    · simp [acquire_lock, condCheckFailedExc, excStoreCode]
    · intro e he
      simp only [acquire_lock]
      rw [if_neg he]
    · intro db' hdb'
      simp [acquire_lock, putItemIfAbsent, hl, condCheckFailedExc,
        excStoreCode] at hdb'

/-- Witness for C3: on an empty table the first acquire succeeds, the second
refuses, and a non-conditional store fault propagates. -/
theorem acquire_lock_spec_witness :
    (∃ db', acquire_lock "step-1" 30 1000 "T0" none [] = .ok (true, db'))
      ∧ (∀ db', acquire_lock "step-1" 30 1000 "T0" none [] = .ok (true, db') →
          acquire_lock "step-1" 30 1001 "T1" none db' = .ok (false, db'))
      ∧ excStoreCode (PyExc.clientError "ProvisionedThroughputExceededException" 400 "slow")
          ≠ some "ConditionalCheckFailedException"
      ∧ acquire_lock "step-1" 30 1000 "T0"
          (some (PyExc.clientError "ProvisionedThroughputExceededException" 400 "slow")) []
        = .error (PyExc.clientError "ProvisionedThroughputExceededException" 400 "slow") := by
  have h := acquire_lock_spec "step-1" 30 1000 30 1001 "T0" "T1" []
  refine ⟨h.1.mpr rfl, ?_, by decide, ?_⟩
  · intro db' hdb'
    exact (h.2.2.2.2 db' hdb').2.2
  · exact h.2.2.2.1 _ (by decide)

/-! ## Claim C7 -/

theorem alUpdate_append {κ α : Type} [DecidableEq κ] (l u1 u2 : List (κ × α)) :
    alUpdate l (u1 ++ u2) = alUpdate (alUpdate l u1) u2 :=
  List.foldl_append _ _ _ _

theorem summaryTail_keys (sum : Option (List (String × AttrVal))) :
    ∀ kv ∈ summaryTail sum, kv.1 = "summary" := by
  rcases sum with _ | sf
  · simp [summaryTail]
  · by_cases h : sf.isEmpty <;> simp [summaryTail, h]

theorem outcomeTail_keys (out : Option String) :
    ∀ kv ∈ outcomeTail out, kv.1 = "outcome" := by
  rcases out with _ | o <;> simp [outcomeTail]

theorem errorTail_keys (ef : Option (List (String × AttrVal))) :
    ∀ kv ∈ errorTail ef, kv.1 = "error" := by
  rcases ef with _ | e
  · simp [errorTail]
  · by_cases h : e.isEmpty <;> simp [errorTail, h]

theorem finalizeSets_ended_at (it : Item) (st now : String) (out : Option String)
    (sum : Option (List (String × AttrVal))) :
    alGet (alUpdate it (finalizeSets st now out sum)) "ended_at"
      = some (.s now) := by
  rw [finalizeSets, alUpdate_append, alUpdate_append]
  rw [alGet_alUpdate_notMem _ _ _
      (fun kv hm => by rw [summaryTail_keys sum kv hm]; decide),
    alGet_alUpdate_notMem _ _ _
      (fun kv hm => by rw [outcomeTail_keys out kv hm]; decide)]
  show alGet (alSet (alSet (alSet it "status" (AttrVal.s st)) "ended_at"
      (AttrVal.s now)) "updated_at" (AttrVal.s now)) "ended_at" = some (.s now)
  rw [alGet_alSet_ne _ _ _ _ (by decide), alGet_alSet_self]

theorem finalizeSets_status (it : Item) (st now : String) (out : Option String)
    (sum : Option (List (String × AttrVal))) :
    alGet (alUpdate it (finalizeSets st now out sum)) "status"
      = some (.s st) := by
  rw [finalizeSets, alUpdate_append, alUpdate_append]
  rw [alGet_alUpdate_notMem _ _ _
      (fun kv hm => by rw [summaryTail_keys sum kv hm]; decide),
    alGet_alUpdate_notMem _ _ _
      (fun kv hm => by rw [outcomeTail_keys out kv hm]; decide)]
  show alGet (alSet (alSet (alSet it "status" (AttrVal.s st)) "ended_at"
      (AttrVal.s now)) "updated_at" (AttrVal.s now)) "status" = some (.s st)
  rw [alGet_alSet_ne _ _ _ _ (by decide), alGet_alSet_ne _ _ _ _ (by decide),
    alGet_alSet_self]

theorem finalizeSets_outcome (it : Item) (st now o : String)
    (sum : Option (List (String × AttrVal))) :
    alGet (alUpdate it (finalizeSets st now (some o) sum)) "outcome"
      = some (.s o) := by
  rw [finalizeSets, alUpdate_append, alUpdate_append]
  rw [alGet_alUpdate_notMem _ _ _
      (fun kv hm => by rw [summaryTail_keys sum kv hm]; decide)]
  show alGet (alSet (alUpdate it [("status", AttrVal.s st),
      ("ended_at", AttrVal.s now), ("updated_at", AttrVal.s now)]) "outcome"
      (AttrVal.s o)) "outcome" = some (.s o)
  rw [alGet_alSet_self]

theorem jobRunItem_no_ended_at (a b c d e f g : String) :
    alGet (jobRunItem a b c d e f g) "ended_at" = none := rfl

theorem begin_job_run_ok (nova wf arn cid idem jr t0 u niso : String)
    (identifiers : List (String × String)) (db0 : DDB)
    (habs : alGet db0 (nova, _jobrun_sk wf t0 jr) = none) :
    begin_job_run nova wf arn cid idem identifiers (some t0) (some jr) u niso db0
      = .ok (jr, alSet db0 (nova, _jobrun_sk wf t0 jr)
          (alUpdate (jobRunItem nova wf arn cid idem jr t0)
            (identifiers.map (fun kv => (kv.1, AttrVal.s kv.2))))) := by
  simp only [begin_job_run, Option.getD_some, putItemIfAbsent, habs, Except.map]

theorem finalize_job_run_ok (nova wf t0 jr st t1 niso : String)
    (out : Option String) (sum : Option (List (String × AttrVal)))
    (db : DDB) (it : Item)
    (hit : alGet db (nova, _jobrun_sk wf t0 jr) = some it)
    (hend : alGet it "ended_at" = none) :
    finalize_job_run nova wf t0 jr st (some t1) out sum niso db
      = .ok (alSet db (nova, _jobrun_sk wf t0 jr)
          (alUpdate it (finalizeSets st t1 out sum))) := by
  simp only [finalize_job_run, Option.getD_some, updateItemCond, hit, alContains,
    hend, Option.isSome_none, Bool.not_false, if_pos]

theorem finalize_job_run_already (nova wf t0 jr st t1 niso : String)
    (out : Option String) (sum : Option (List (String × AttrVal)))
    (db : DDB) (it : Item)
    (hit : alGet db (nova, _jobrun_sk wf t0 jr) = some it)
    (hend : (alGet it "ended_at").isSome = true) :
    finalize_job_run nova wf t0 jr st (some t1) out sum niso db
      = .error condCheckFailedExc := by
  simp only [finalize_job_run, Option.getD_some, updateItemCond, hit, alContains,
    hend, Bool.not_true, Bool.false_eq_true, if_false]

/-- C7: beginning a JobRun whose key is absent succeeds; a first finalize
succeeds (ending the run); a second finalize with the same identity fails
with the store's conditional-check condition — the distinct signal of the
`attribute_not_exists(ended_at)` guard, distinguishable from any other
write error by its code — it never silently succeeds, and the stored
terminal state (status, `ended_at`, outcome) is exactly what the first
finalize wrote. -/
theorem jobrun_finalize_once (nova wf arn cid idem jr st1 st2 t0 t1 t2 u niso : String)
    (out1 out2 : Option String) (sum1 sum2 : Option (List (String × AttrVal)))
    (identifiers : List (String × String))
    (hids : ∀ kv ∈ identifiers, kv.1 ≠ "ended_at")
    (db0 : DDB)
    (habs : alGet db0 (nova, _jobrun_sk wf t0 jr) = none) :
    ∃ db1 db2 item2,
      begin_job_run nova wf arn cid idem identifiers (some t0) (some jr) u niso db0
          = .ok (jr, db1)
        ∧ finalize_job_run nova wf t0 jr st1 (some t1) out1 sum1 niso db1 = .ok db2
        ∧ finalize_job_run nova wf t0 jr st2 (some t2) out2 sum2 niso db2
            = .error condCheckFailedExc
        ∧ alGet db2 (nova, _jobrun_sk wf t0 jr) = some item2
        ∧ alGet item2 "status" = some (.s st1)
        ∧ alGet item2 "ended_at" = some (.s t1)
        ∧ ∀ o, out1 = some o → alGet item2 "outcome" = some (.s o) := by
  have hids' : ∀ kv ∈ identifiers.map (fun kv => (kv.1, AttrVal.s kv.2)),
      kv.1 ≠ "ended_at" := by
    intro kv hm
    rcases List.mem_map.mp hm with ⟨kv0, hkv0, rfl⟩
    exact hids kv0 hkv0
  have hend1 : alGet (alUpdate (jobRunItem nova wf arn cid idem jr t0)
      (identifiers.map (fun kv => (kv.1, AttrVal.s kv.2)))) "ended_at" = none := by
    rw [alGet_alUpdate_notMem _ _ _ hids', jobRunItem_no_ended_at]
  refine ⟨_, _, _, begin_job_run_ok nova wf arn cid idem jr t0 u niso identifiers
      db0 habs,
    finalize_job_run_ok nova wf t0 jr st1 t1 niso out1 sum1 _ _
      (alGet_alSet_self _ _ _) hend1,
    finalize_job_run_already nova wf t0 jr st2 t2 niso out2 sum2 _ _
      (alGet_alSet_self _ _ _) (by rw [finalizeSets_ended_at]; rfl),
    alGet_alSet_self _ _ _,
    finalizeSets_status _ _ _ _ _,
    finalizeSets_ended_at _ _ _ _ _,
    ?_⟩
  intro o ho
  rw [ho]
  exact finalizeSets_outcome _ _ _ _ _

/-- Witness for C7: a concrete begin/finalize/finalize sequence on an empty
table exercising the double-finalize rejection. -/
theorem jobrun_finalize_once_witness :
    ∃ db1 db2 item2,
      begin_job_run "NOVA1" "AcquireAndValidateSpectra" "arn:states:1" "cid"
          "idem-123" [("data_product_id", "DP1")] (some "2026-02-23T18:10:00Z")
          (some "jr1") "unused-uuid" "unused-now" [] = .ok ("jr1", db1)
        ∧ finalize_job_run "NOVA1" "AcquireAndValidateSpectra" "2026-02-23T18:10:00Z"
            "jr1" "SUCCEEDED" (some "2026-02-23T18:12:00Z") (some "ok")
            (some [("items", AttrVal.n 3)]) "unused-now" db1 = .ok db2
        ∧ finalize_job_run "NOVA1" "AcquireAndValidateSpectra" "2026-02-23T18:10:00Z"
            "jr1" "FAILED" (some "2026-02-23T18:13:00Z") none none "unused-now" db2
            = .error condCheckFailedExc
        ∧ alGet db2 ("NOVA1", _jobrun_sk "AcquireAndValidateSpectra"
            "2026-02-23T18:10:00Z" "jr1") = some item2
        ∧ alGet item2 "status" = some (.s "SUCCEEDED")
        ∧ alGet item2 "ended_at" = some (.s "2026-02-23T18:12:00Z")
        ∧ ∀ o, (some "ok" : Option String) = some o →
            alGet item2 "outcome" = some (.s o) := by
  exact jobrun_finalize_once "NOVA1" "AcquireAndValidateSpectra" "arn:states:1"
    "cid" "idem-123" "jr1" "SUCCEEDED" "FAILED" "2026-02-23T18:10:00Z"
    "2026-02-23T18:12:00Z" "2026-02-23T18:13:00Z" "unused-uuid" "unused-now"
    (some "ok") none (some [("items", AttrVal.n 3)]) none
    [("data_product_id", "DP1")] (by decide) [] rfl


/-! ## Claim C8 -/

theorem attemptFinishSets_status (it : Item) (st now : String) (dur : Int)
    (ef : Option (List (String × AttrVal))) :
    alGet (alUpdate it (attemptFinishSets st now dur ef)) "status"
      = some (.s st) := by
  rw [attemptFinishSets, alUpdate_append]
  rw [alGet_alUpdate_notMem _ _ _
      (fun kv hm => by rw [errorTail_keys ef kv hm]; decide)]
  show alGet (alSet (alSet (alSet (alSet it "status" (AttrVal.s st)) "finished_at"
      (AttrVal.s now)) "duration_ms" (AttrVal.n dur)) "updated_at"
      (AttrVal.s now)) "status" = some (.s st)
  rw [alGet_alSet_ne _ _ _ _ (by decide), alGet_alSet_ne _ _ _ _ (by decide),
    alGet_alSet_ne _ _ _ _ (by decide), alGet_alSet_self]

/-- Counterexample to C8 as stated: start an attempt, finish it SUCCEEDED,
then call finish again on the very same handle.  The claim says the second
call reports a not-found/terminal condition rather than succeeding; in the
code the second call's condition `attribute_exists(PK) AND
attribute_exists(SK)` still holds, so it succeeds and overwrites the
terminal status with CANCELLED. -/
theorem record_attempt_finished_twice_succeeds :
    ∃ db1 db2 db3 it,
      record_attempt_started "NOVA1" "jr1" "download_bytes" 1 (some "T0") []
          "unused" [] = .ok ("ATTEMPT#jr1#download_bytes#1#T0", db1)
        ∧ record_attempt_finished "NOVA1" "ATTEMPT#jr1#download_bytes#1#T0"
            "SUCCEEDED" 5 (some "T1") none "unused" db1 = .ok db2
        ∧ record_attempt_finished "NOVA1" "ATTEMPT#jr1#download_bytes#1#T0"
            "CANCELLED" 9 (some "T2") none "unused" db2 = .ok db3
        ∧ alGet db3 ("NOVA1", "ATTEMPT#jr1#download_bytes#1#T0") = some it
        ∧ alGet it "status" = some (.s "CANCELLED") := by
  refine ⟨_, _, _, _, rfl, rfl, rfl, rfl, rfl⟩

/-- C8 (amended): `finish` on a handle succeeds exactly when the attempt
item exists — including a second finish on the same handle, which succeeds
again and overwrites the stored terminal status; the not-found
conditional-check condition is reported exactly when the item does not
exist.  (The code does not enforce one-shot finish; only non-existence is
rejected.) -/
theorem record_attempt_finished_behavior (nova sk st : String) (dur : Int)
    (t niso : String) (ef : Option (List (String × AttrVal))) (db : DDB) :
    ((∃ db', record_attempt_finished nova sk st dur (some t) ef niso db = .ok db')
        ↔ (alGet db (nova, sk)).isSome = true)
      ∧ (record_attempt_finished nova sk st dur (some t) ef niso db
          = .error condCheckFailedExc ↔ alGet db (nova, sk) = none)
      ∧ ∀ it, alGet db (nova, sk) = some it →
          record_attempt_finished nova sk st dur (some t) ef niso db
              = .ok (alSet db (nova, sk) (alUpdate it (attemptFinishSets st t dur ef)))
            ∧ alGet (alUpdate it (attemptFinishSets st t dur ef)) "status"
              = some (.s st) := by
  rcases hl : alGet db (nova, sk) with _ | it
  · refine ⟨?_, ?_, ?_⟩
    · simp [record_attempt_finished, updateItemCond, hl]
    · simp [record_attempt_finished, updateItemCond, hl]
    · intro it hit
      exact Option.noConfusion hit
  · refine ⟨?_, ?_, ?_⟩
    · simp [record_attempt_finished, updateItemCond, hl]
    · simp [record_attempt_finished, updateItemCond, hl]
    · intro it' hit'
      obtain rfl : it = it' := Option.some.inj hit'
      constructor
      · simp [record_attempt_finished, updateItemCond, hl]
      · exact attemptFinishSets_status _ _ _ _ _

/-- Witness for the amended C8: finishing an attempt recorded on an empty
table succeeds, and finishing a handle that was never started reports the
conditional-check (not-found) condition. -/
theorem record_attempt_finished_behavior_witness :
    (∀ it, alGet [(("NOVA1", "ATTEMPT#jr1#t#1#T0"),
          attemptItem "NOVA1" "jr1" "t" 1 "T0")] ("NOVA1", "ATTEMPT#jr1#t#1#T0")
        = some it →
        record_attempt_finished "NOVA1" "ATTEMPT#jr1#t#1#T0" "SUCCEEDED" 5
            (some "T1") none "unused"
            [(("NOVA1", "ATTEMPT#jr1#t#1#T0"), attemptItem "NOVA1" "jr1" "t" 1 "T0")]
            = .ok (alSet [(("NOVA1", "ATTEMPT#jr1#t#1#T0"),
                attemptItem "NOVA1" "jr1" "t" 1 "T0")] ("NOVA1", "ATTEMPT#jr1#t#1#T0")
                (alUpdate it (attemptFinishSets "SUCCEEDED" "T1" 5 none)))
          ∧ alGet (alUpdate it (attemptFinishSets "SUCCEEDED" "T1" 5 none)) "status"
            = some (.s "SUCCEEDED"))
      ∧ (record_attempt_finished "NOVA1" "ATTEMPT#jr1#t#1#T0" "SUCCEEDED" 5
          (some "T1") none "unused" [] = .error condCheckFailedExc
            ↔ alGet ([] : DDB) ("NOVA1", "ATTEMPT#jr1#t#1#T0") = none) :=
  ⟨(record_attempt_finished_behavior "NOVA1" "ATTEMPT#jr1#t#1#T0" "SUCCEEDED" 5
      "T1" "unused" none _).2.2,
    (record_attempt_finished_behavior "NOVA1" "ATTEMPT#jr1#t#1#T0" "SUCCEEDED" 5
      "T1" "unused" none []).2.1⟩

/-! ## Claim C10 -/

theorem jobrun_sk_ne_lock_sk (wf st jr : String) : _jobrun_sk wf st jr ≠ "LOCK" := by
  intro h
  have hd := congrArg String.data h
  simp only [_jobrun_sk, String.data_append] at hd
  have h1 : some 'J' = some 'L' := congrArg List.head? hd
  exact absurd (Option.some.inj h1) (by decide)

theorem attempt_sk_ne_lock_sk (jr task : String) (no : Int) (ts : String) :
    _attempt_sk jr task no ts ≠ "LOCK" := by
  intro h
  have hd := congrArg String.data h
  simp only [_attempt_sk, String.data_append] at hd
  have h1 : some 'A' = some 'L' := congrArg List.head? hd
  exact absurd (Option.some.inj h1) (by decide)

theorem acquire_lock_frame (k : String) (ttl now : Int) (iso : String) (db : DDB)
    (key' : String × String) (hne : key' ≠ (_lock_pk k, "LOCK")) :
    ∀ b db', acquire_lock k ttl now iso none db = .ok (b, db') →
      alGet db' key' = alGet db key' := by
  intro b db' h
  rcases hl : alGet db (_lock_pk k, "LOCK") with _ | it
  · simp only [acquire_lock, putItemIfAbsent, hl, Except.ok.injEq,
      Prod.mk.injEq] at h
    rw [← h.2, alGet_alSet_ne _ _ _ _ hne]
  · simp only [acquire_lock, putItemIfAbsent, hl, condCheckFailedExc, excStoreCode,
      if_pos, Except.ok.injEq, Prod.mk.injEq] at h
    rw [← h.2]

/-- C10: lock acquisition and release read and write only the store item at
key `(LOCK#k, "LOCK")`; every other key is untouched.  Since JobRun items
live at sort keys prefixed `JOBRUN#` and Attempt items at sort keys prefixed
`ATTEMPT#`, no lock operation ever creates, modifies or deletes a JobRun or
Attempt record. -/
theorem lock_frame_spec (k nova wf st jr task : String) (no ttl now : Int)
    (ts iso : String) (db : DDB) :
    (∀ key' : String × String, key' ≠ (_lock_pk k, "LOCK") →
        (∀ b db', acquire_lock k ttl now iso none db = .ok (b, db') →
            alGet db' key' = alGet db key')
          ∧ alGet (release_lock k db) key' = alGet db key')
      ∧ (∀ b db', acquire_lock k ttl now iso none db = .ok (b, db') →
          alGet db' (nova, _jobrun_sk wf st jr)
              = alGet db (nova, _jobrun_sk wf st jr)
            ∧ alGet db' (nova, _attempt_sk jr task no ts)
              = alGet db (nova, _attempt_sk jr task no ts))
      ∧ alGet (release_lock k db) (nova, _jobrun_sk wf st jr)
          = alGet db (nova, _jobrun_sk wf st jr)
      ∧ alGet (release_lock k db) (nova, _attempt_sk jr task no ts)
          = alGet db (nova, _attempt_sk jr task no ts) := by
  have hjr : (nova, _jobrun_sk wf st jr) ≠ (_lock_pk k, "LOCK") := by
    intro h
    exact jobrun_sk_ne_lock_sk wf st jr (congrArg Prod.snd h)
  have hat : (nova, _attempt_sk jr task no ts) ≠ (_lock_pk k, "LOCK") := by
    intro h
    exact attempt_sk_ne_lock_sk jr task no ts (congrArg Prod.snd h)
  refine ⟨?_, ?_, ?_, ?_⟩
  · intro key' hne
    exact ⟨acquire_lock_frame k ttl now iso db key' hne,
      alGet_alDelete_ne _ _ _ hne⟩
  · intro b db' h
    exact ⟨acquire_lock_frame k ttl now iso db _ hjr b db' h,
      acquire_lock_frame k ttl now iso db _ hat b db' h⟩
  · exact alGet_alDelete_ne _ _ _ hjr
  · exact alGet_alDelete_ne _ _ _ hat

/-- Witness for C10: acquiring and releasing the lock `step-1` leaves a
JobRun record and an Attempt record in place. -/
theorem lock_frame_spec_witness :
    (∀ b db', acquire_lock "step-1" 30 1000 "T0" none
          [(("NOVA1", _jobrun_sk "W" "T" "jr1"), jobRunItem "NOVA1" "W" "a" "c" "i"
            "jr1" "T")] = .ok (b, db') →
        alGet db' ("NOVA1", _jobrun_sk "W" "T" "jr1")
            = alGet [(("NOVA1", _jobrun_sk "W" "T" "jr1"), jobRunItem "NOVA1" "W"
              "a" "c" "i" "jr1" "T")] ("NOVA1", _jobrun_sk "W" "T" "jr1")
          ∧ alGet db' ("NOVA1", _attempt_sk "jr1" "t" 1 "T0")
            = alGet [(("NOVA1", _jobrun_sk "W" "T" "jr1"), jobRunItem "NOVA1" "W"
              "a" "c" "i" "jr1" "T")] ("NOVA1", _attempt_sk "jr1" "t" 1 "T0"))
      ∧ alGet (release_lock "step-1" [(("NOVA1", _jobrun_sk "W" "T" "jr1"),
            jobRunItem "NOVA1" "W" "a" "c" "i" "jr1" "T")])
          ("NOVA1", _jobrun_sk "W" "T" "jr1")
        = alGet [(("NOVA1", _jobrun_sk "W" "T" "jr1"), jobRunItem "NOVA1" "W" "a"
            "c" "i" "jr1" "T")] ("NOVA1", _jobrun_sk "W" "T" "jr1") :=
  ⟨(lock_frame_spec "step-1" "NOVA1" "W" "T" "jr1" "t" 1 30 1000 "T0" "T0"
      [(("NOVA1", _jobrun_sk "W" "T" "jr1"), jobRunItem "NOVA1" "W" "a" "c" "i"
        "jr1" "T")]).2.1,
    (lock_frame_spec "step-1" "NOVA1" "W" "T" "jr1" "t" 1 30 1000 "T0" "T0"
      [(("NOVA1", _jobrun_sk "W" "T" "jr1"), jobRunItem "NOVA1" "W" "a" "c" "i"
        "jr1" "T")]).2.2.1⟩

/-- Witness for C2: two `RuntimeError`s whose messages differ only in
internal whitespace (the spec's own example) fingerprint identically. -/
theorem fingerprint_error_spec_witness :
    excTypeName (PyExc.other "RuntimeError" "hello   world")
        = excTypeName (PyExc.other "RuntimeError" "hello world")
      ∧ excStoreCode (PyExc.other "RuntimeError" "hello   world")
        = excStoreCode (PyExc.other "RuntimeError" "hello world")
      ∧ _normalize_message "hello   world" = _normalize_message "hello world"
      ∧ fingerprint_error (PyExc.other "RuntimeError" "hello   world")
        = fingerprint_error (PyExc.other "RuntimeError" "hello world") :=
  ⟨rfl, rfl, by decide,
    (fingerprint_error_spec (PyExc.other "RuntimeError" "hello   world")
      (PyExc.other "RuntimeError" "hello world") rfl rfl (by decide)).2.2.2.1⟩

end WorkflowRuntime
